import Mathlib

/-!
# Verification of the ATS data-model layer

A shallow embedding of the entity-lifecycle / referential-integrity layer of
the applicant-tracking repository, together with proofs about the claims of
its specification.

* `src/db/models.ts` — mongoose schemas, pre-save validation hooks and
  pre-deleteOne cascade hooks.  We embed the database as an explicit record
  of document lists (`Db`) and each `save` / `deleteOne` operation as a pure
  function.  A `save` whose pre-hook throws is embedded as `Except.error msg`
  and produces no new store (mongoose aborts the write when a pre-save hook
  passes an error).
* `src/pdfParser.ts` — `parseResumes` over abstract buffers.
* `src/app/api/analyseSave/route.ts` — the batch resume-analysis POST
  handler over abstract parse/LLM/save oracles.
* the pipeline (JobRole) update surface — the zod refine on
  `hiringProcessStages` and the stage-delete button condition.

Ids are embedded as `Nat`, dates as `Nat` (milliseconds since the epoch),
`Number` salary fields as `Int`.  Document fields that no hook and no claim
reads (names, emails, descriptions, timestamps, …) are elided from the
document structures; each structure keeps the fields its hooks consult.
-/

set_option autoImplicit false

namespace Ats

/-- The `CandidateStatus` enum of models.ts. -/
inductive CandidateStatus where
  | applied
  | shortlisted
  | interviewed
  | offered
  | rejected
deriving DecidableEq, Repr

/-- The string value each `CandidateStatus` member carries in models.ts
(used in the transition error message). -/
def CandidateStatus.toStr : CandidateStatus → String
  | .applied => "applied"
  | .shortlisted => "shortlisted"
  | .interviewed => "interviewed"
  | .offered => "offered"
  | .rejected => "rejected"

/-- The `StageStatus` enum of models.ts. -/
inductive StageStatus where
  | upcoming
  | ongoing
  | completed
  | skipped
  | terminated
deriving DecidableEq, Repr

/-- The `validTransitions` table built inside `CandidateSchema.pre("save")`
(models.ts:833-850): `Applied → Shortlisted, Rejected`;
`Shortlisted → Interviewed, Rejected`; `Interviewed → Offered, Rejected`;
`Offered → Rejected`; `Rejected → (none)`. -/
def validTransitions : CandidateStatus → List CandidateStatus
  | .applied => [.shortlisted, .rejected]
  | .shortlisted => [.interviewed, .rejected]
  | .interviewed => [.offered, .rejected]
  | .offered => [.rejected]
  | .rejected => []

/-- A `User` document (fields read by hooks: `_id`, `roleId`). -/
structure UserDoc where
  id : Nat
  roleId : Nat
deriving DecidableEq, Repr

/-- A `Department` document (fields read by hooks: `_id`, `hiringManagerId`). -/
structure DepartmentDoc where
  id : Nat
  hiringManagerId : Nat
deriving DecidableEq, Repr

/-- A `Job` document (fields read by hooks/validators). -/
structure JobDoc where
  id : Nat
  departmentId : Nat
  hiringManagerId : Nat
  hiringPipelineId : Nat
  minimumSalary : Int
  maximumSalary : Int
deriving DecidableEq, Repr

/-- A `JobSkill` document. -/
structure JobSkillDoc where
  id : Nat
  jobId : Nat
deriving DecidableEq, Repr

/-- A `JobApplication` document. -/
structure JobApplicationDoc where
  id : Nat
  candidateId : Nat
  jobId : Nat
deriving DecidableEq, Repr

/-- A `ReferralToken` document (fields read by hooks: `_id`, `jobId`,
`expiresAt`). -/
structure ReferralTokenDoc where
  id : Nat
  jobId : Nat
  expiresAt : Nat
  referredById : Nat := 0
deriving DecidableEq, Repr

/-- A `Candidate` mongoose document as seen by `CandidateSchema.pre("save")`.
`status` is the document's current in-memory value of the `status` path and
`statusModified` embeds `candidate.isModified ("status")`.  Mongoose keeps no
previously-persisted value that `candidate.get` could return: `get` reads the
current value of the path. -/
structure CandidateDoc where
  id : Nat
  status : CandidateStatus
  statusModified : Bool
  referralTokenId : Option Nat
deriving DecidableEq, Repr

/-- A `HiringStage` document. -/
structure HiringStageDoc where
  pipelineId : Nat
  name : String
  mandatory : Bool
  schedule : Option Nat
  status : StageStatus
  maxCandidatesAllowed : Option Int
  assignedToId : Option Nat
  id : Nat := 0
deriving DecidableEq, Repr

/-- A `TeamRole` document (fields read by hooks: `_id`, `name` — the Team
save hook queries the role named "lead"). -/
structure TeamRoleDoc where
  id : Nat
  name : String
deriving DecidableEq, Repr

/-- A `Team` document (fields read by hooks: `_id`, `leaderId`). -/
structure TeamDoc where
  id : Nat
  leaderId : Option Nat
deriving DecidableEq, Repr

/-- A `TeamMember` document. -/
structure TeamMemberDoc where
  userId : Nat
  teamId : Nat
  teamRoleId : Nat
deriving DecidableEq, Repr

/-- A `Credential` document (fields read by hooks: `userId`). -/
structure CredentialDoc where
  userId : Nat
deriving DecidableEq, Repr

/-- A `RolePermission` document (fields read by hooks: `roleId`). -/
structure RolePermissionDoc where
  roleId : Nat
deriving DecidableEq, Repr

/-- A `CandidateSkill` document. -/
structure CandidateSkillDoc where
  candidateId : Nat
deriving DecidableEq, Repr

/-- A `StageParticipant` document. -/
structure StageParticipantDoc where
  candidateId : Nat
  stageId : Nat
deriving DecidableEq, Repr

/-- An `Interview` document. -/
structure InterviewDoc where
  id : Nat
  candidateId : Nat
  stageId : Nat
deriving DecidableEq, Repr

/-- An `InterviewParticipant` document. -/
structure InterviewParticipantDoc where
  interviewId : Nat
  interviewerId : Nat
deriving DecidableEq, Repr

/-- A `Checklist` document. -/
structure ChecklistDoc where
  id : Nat
  interviewId : Nat
  updatedById : Nat
deriving DecidableEq, Repr

/-- A `Note` document. -/
structure NoteDoc where
  id : Nat
  createdById : Nat
  candidateId : Nat
deriving DecidableEq, Repr

/-- An `Attachment` document. -/
structure AttachmentDoc where
  id : Nat
  candidateId : Nat
  uploadedById : Nat
deriving DecidableEq, Repr

/-- The `TargetType` enum of models.ts. -/
inductive TargetType where
  | user
  | candidate
  | job
  | stage
  | interview
  | checklist
  | note
  | attachment
  | team
  | department
deriving DecidableEq, Repr

/-- The string value each `TargetType` member carries in models.ts (used
in the ActivityLog error message). -/
def TargetType.toStr : TargetType → String
  | .user => "user"
  | .candidate => "candidate"
  | .job => "job"
  | .stage => "stage"
  | .interview => "interview"
  | .checklist => "checklist"
  | .note => "note"
  | .attachment => "attachment"
  | .team => "team"
  | .department => "department"

/-- An `ActivityLog` document (fields read by hooks: `actorId`,
`targetType`, `targetId`). -/
structure ActivityLogDoc where
  actorId : Nat
  targetType : TargetType
  targetId : Nat
deriving DecidableEq, Repr

/-- The document store: one list per collection that the claims touch
(collections added for the amended C3 claim carry `[]` defaults). -/
structure Db where
  roles : List Nat
  users : List UserDoc
  departments : List DepartmentDoc
  pipelines : List Nat
  jobs : List JobDoc
  jobSkills : List JobSkillDoc
  jobApplications : List JobApplicationDoc
  referralTokens : List ReferralTokenDoc
  candidates : List CandidateDoc
  hiringStages : List HiringStageDoc
  teamRoles : List TeamRoleDoc := []
  teams : List TeamDoc := []
  teamMembers : List TeamMemberDoc := []
  credentials : List CredentialDoc := []
  rolePermissions : List RolePermissionDoc := []
  candidateSkills : List CandidateSkillDoc := []
  stageParticipants : List StageParticipantDoc := []
  interviews : List InterviewDoc := []
  interviewParticipants : List InterviewParticipantDoc := []
  checklists : List ChecklistDoc := []
  notes : List NoteDoc := []
  attachments : List AttachmentDoc := []
  activityLogs : List ActivityLogDoc := []
deriving DecidableEq, Repr

/-- The custom `maximumSalary` validator of `JobSchema`
(models.ts:509-518): `value >= this.minimumSalary`. -/
def jobSalaryValid (j : JobDoc) : Bool :=
  j.maximumSalary ≥ j.minimumSalary

/-- Saving a `Job`: mongoose first runs schema validation (the
`maximumSalary` validator), then `JobSchema.pre("save")`
(models.ts:537-552), which looks up `departmentId`, `hiringManagerId` and
`hiringPipelineId` and throws `Invalid departmentId` /
`Invalid hiringManagerId` / `Invalid hiringPipelineId`, checked in that
order.  On success the job is persisted. -/
def jobSave (db : Db) (j : JobDoc) : Except String Db :=
  if ¬ jobSalaryValid j then
    .error "maximumSalary must be greater than or equal to minimumSalary"
  else if (db.departments.find? (fun d => d.id == j.departmentId)).isNone then
    .error "Invalid departmentId"
  else if (db.users.find? (fun u => u.id == j.hiringManagerId)).isNone then
    .error "Invalid hiringManagerId"
  else if ¬ db.pipelines.contains j.hiringPipelineId then
    .error "Invalid hiringPipelineId"
  else
    .ok { db with jobs := db.jobs ++ [j] }

/-- Embeds `Job.deleteMany (departmentId = deptId)` as run by
`DepartmentSchema.pre("deleteOne")` (models.ts:438-451).
`Model.deleteMany` is a query operation: the document-level
`JobSchema.pre("deleteOne", document := true, query := false)` middleware
does NOT run for it, so no job-level cascade fires here. -/
def jobDeleteManyByDepartment (db : Db) (deptId : Nat) : Db :=
  { db with jobs := db.jobs.filter (fun j => j.departmentId ≠ deptId) }

/-- Embeds `jobDoc.deleteOne ()`: the document-level
`JobSchema.pre("deleteOne")` hook (models.ts:557-574) removes the job's
`JobSkill`, `JobApplication` and `ReferralToken` documents, then the job
itself is removed. -/
def jobDeleteOne (db : Db) (jobId : Nat) : Db :=
  { db with
    jobSkills := db.jobSkills.filter (fun s => s.jobId ≠ jobId)
    jobApplications := db.jobApplications.filter (fun a => a.jobId ≠ jobId)
    referralTokens := db.referralTokens.filter (fun t => t.jobId ≠ jobId)
    jobs := db.jobs.filter (fun j => j.id ≠ jobId) }

/-- Embeds `departmentDoc.deleteOne ()`: `DepartmentSchema.pre("deleteOne")`
(models.ts:438-451) runs `Job.deleteMany (departmentId = this._id)`, then
the department itself is removed. -/
def departmentDeleteOne (db : Db) (deptId : Nat) : Db :=
  let db1 := jobDeleteManyByDepartment db deptId
  { db1 with departments := db1.departments.filter (fun d => d.id ≠ deptId) }

/-- Persisting a candidate document: upsert by `_id` (the saved document
replaces any persisted document with the same id, and its modified-paths
tracking is reset). -/
def candidatePersist (db : Db) (c : CandidateDoc) : Db :=
  { db with candidates :=
      db.candidates.filter (fun x => x.id ≠ c.id)
        ++ [{ c with statusModified := false }] }

/-- The status-transition part of `CandidateSchema.pre("save")`
(models.ts:832-863).  The hook computes
`previousStatus := candidate.get ("status", undefined, getters := false)`;
mongoose's `Document.get` returns the document's current value of the path
(the value being saved), not the previously persisted one, so
`previousStatus` always equals `c.status`.  `validTransitions` maps every
status to an array (a truthy value, even when empty), so the hook throws
exactly when the array for `previousStatus` does not contain the new
status. -/
def candidateSaveStatus (db : Db) (c : CandidateDoc) : Except String Db :=
  if c.statusModified then
    let previousStatus := c.status
    if (validTransitions previousStatus).contains c.status then
      .ok (candidatePersist db c)
    else
      .error ("Invalid status transition from " ++ previousStatus.toStr
        ++ " to " ++ c.status.toStr)
  else
    .ok (candidatePersist db c)

/-- Embeds `CandidateSchema.pre("save")` (models.ts:822-868).  First the referral
check: when `referralTokenId` is set, the hook requires a `ReferralToken`
with that `_id` whose `expiresAt` is `$gte` the current time, else it throws
"Invalid or expired referral token".  Then the status-transition check. -/
def candidateSave (db : Db) (c : CandidateDoc) (now : Nat) : Except String Db :=
  match c.referralTokenId with
  | some t =>
    if (db.referralTokens.find? (fun rt => rt.id == t && now ≤ rt.expiresAt)).isNone then
      .error "Invalid or expired referral token"
    else
      candidateSaveStatus db c
  | none => candidateSaveStatus db c

/-- The `schedule` validator of `HiringStageSchema` (models.ts:691-698):
`!value || value > new Date ()`. -/
def stageScheduleValid (s : HiringStageDoc) (now : Nat) : Bool :=
  match s.schedule with
  | none => true
  | some d => now < d

/-- The `maxCandidatesAllowed` validator of `HiringStageSchema`
(models.ts:700-707): `!value || value > 0` (note that the JS value `0` is
falsy, so `0` passes the validator). -/
def stageMaxCandidatesValid (s : HiringStageDoc) : Bool :=
  match s.maxCandidatesAllowed with
  | none => true
  | some v => v == 0 || v > 0

/-- Saving a `HiringStage`: schema validation (the `schedule` and
`maxCandidatesAllowed` validators), then `HiringStageSchema.pre("save")`
(models.ts:723-741): a mandatory stage with status `skipped` throws
"Mandatory stages cannot be skipped"; then `pipelineId` and (when set)
`assignedToId` must exist. -/
def hiringStageSave (db : Db) (s : HiringStageDoc) (now : Nat) : Except String Db :=
  if ¬ stageScheduleValid s now then
    .error "Schedule must be a future date"
  else if ¬ stageMaxCandidatesValid s then
    .error "maxCandidatesAllowed must be a positive number"
  else if s.mandatory && s.status == StageStatus.skipped then
    .error "Mandatory stages cannot be skipped"
  else if ¬ db.pipelines.contains s.pipelineId then
    .error "Invalid pipelineId"
  else if (s.assignedToId.isSome
      && (db.users.find? (fun u => some u.id == s.assignedToId)).isNone) then
    .error "Invalid assignedToId"
  else
    .ok { db with hiringStages := db.hiringStages ++ [s] }

/-- Embeds `JobApplicationSchema.pre("save")` (models.ts:929-947): `candidateId`
and `jobId` must exist, and no `JobApplication` with the same
(candidateId, jobId) pair may already exist, else
"Candidate has already applied to this job"; checked in that order. -/
def jobApplicationSave (db : Db) (a : JobApplicationDoc) : Except String Db :=
  if (db.candidates.find? (fun c => c.id == a.candidateId)).isNone then
    .error "Invalid candidateId"
  else if (db.jobs.find? (fun j => j.id == a.jobId)).isNone then
    .error "Invalid jobId"
  else if (db.jobApplications.find?
      (fun e => e.candidateId == a.candidateId && e.jobId == a.jobId)).isSome then
    .error "Candidate has already applied to this job"
  else
    .ok { db with jobApplications := db.jobApplications ++ [a] }

/-! ## Concrete stores used by the closed theorems -/

/-- The empty store. -/
def emptyDb : Db :=
  { roles := [], users := [], departments := [], pipelines := [], jobs := []
    jobSkills := [], jobApplications := [], referralTokens := []
    candidates := [], hiringStages := [] }

/-- A store holding one persisted candidate (id 1) with status `applied`. -/
def dbC1 : Db :=
  { emptyDb with candidates := [{ id := 1, status := .applied, statusModified := false, referralTokenId := none }] }

/-- Candidate 1 loaded from `dbC1` with its status path set to
`shortlisted` — the `Applied → Shortlisted` edge of the transition table,
which the specification says must be accepted. -/
def docC1 : CandidateDoc :=
  { id := 1, status := .shortlisted, statusModified := true, referralTokenId := none }

/-- A store with department 1 (manager 5), pipeline 7, job 10 in department 1,
and one JobSkill / JobApplication / ReferralToken each referencing job 10. -/
def dbC2 : Db :=
  { roles := [], users := [{ id := 5, roleId := 1 }]
    departments := [{ id := 1, hiringManagerId := 5 }]
    pipelines := [7]
    jobs := [{ id := 10, departmentId := 1, hiringManagerId := 5
               hiringPipelineId := 7, minimumSalary := 60, maximumSalary := 80 }]
    jobSkills := [{ id := 100, jobId := 10 }]
    jobApplications := [{ id := 200, candidateId := 42, jobId := 10 }]
    referralTokens := [{ id := 300, jobId := 10, expiresAt := 999 }]
    candidates := [], hiringStages := [] }

end Ats

namespace Ats

/-! ## C1 — candidate status transitions -/

/-- C1 (code bug): the status-transition guard of
`CandidateSchema.pre("save")` compares the saved status with itself, because
`candidate.get ("status")` returns the current value of the path, not the
previously persisted one.  Consequently the allowed edge
`Applied → Shortlisted` is rejected with
"Invalid status transition from shortlisted to shortlisted", and even
creating a fresh candidate (all paths modified) with status `applied` is
rejected with "Invalid status transition from applied to applied" — no
status-modifying save can ever succeed, contradicting the claimed
transition table. -/
theorem candidateStatusTransition_codeBug :
    candidateSave dbC1 docC1 0
      = .error "Invalid status transition from shortlisted to shortlisted"
    ∧ candidateSave emptyDb
        { id := 2, status := .applied, statusModified := true, referralTokenId := none } 0
      = .error "Invalid status transition from applied to applied" := by
  constructor <;> rfl

/-! ## C2 — department deletion cascade -/

/-- C2 (code bug): deleting department 1 removes its jobs, but the removal
goes through `Job.deleteMany`, a query operation that does not fire the
document-level `JobSchema.pre("deleteOne")` cascade; the JobSkill,
JobApplication and ReferralToken documents referencing job 10 all survive,
contradicting the claim that zero such documents remain.  (By contrast a
direct document-level `jobDeleteOne` of job 10 does remove its JobSkill
dependents, witnessing that the grandchild cascade exists but is bypassed.) -/
theorem departmentDeleteCascade_codeBug :
    ((departmentDeleteOne dbC2 1).jobs.filter (fun j => j.departmentId == 1)) = []
    ∧ (departmentDeleteOne dbC2 1).jobSkills = [{ id := 100, jobId := 10 }]
    ∧ (departmentDeleteOne dbC2 1).jobApplications
        = [{ id := 200, candidateId := 42, jobId := 10 }]
    ∧ (departmentDeleteOne dbC2 1).referralTokens
        = [{ id := 300, jobId := 10, expiresAt := 999 }]
    ∧ ((jobDeleteOne dbC2 10).jobSkills.filter (fun s => s.jobId == 10)) = [] := by
  refine ⟨rfl, rfl, rfl, rfl, rfl⟩

end Ats

namespace Ats

/-! ## Shared helper lemmas about `jobSave` -/

/-- A `Job` save with valid salary bounds and all three references present
persists the job. -/
theorem jobSave_ok (db : Db) (j : JobDoc)
    (hsal : jobSalaryValid j = true)
    (hd : ∃ d ∈ db.departments, d.id = j.departmentId)
    (hm : ∃ x ∈ db.users, x.id = j.hiringManagerId)
    (hp : j.hiringPipelineId ∈ db.pipelines) :
    jobSave db j = .ok { db with jobs := db.jobs ++ [j] } := by
  obtain ⟨d, hdmem, hdid⟩ := hd
  obtain ⟨x, hxmem, hxid⟩ := hm
  have h1 : (db.departments.find? (fun d => d.id == j.departmentId)).isSome :=
    List.find?_isSome.mpr ⟨d, hdmem, by simp [hdid]⟩
  have h2 : (db.users.find? (fun u => u.id == j.hiringManagerId)).isSome :=
    List.find?_isSome.mpr ⟨x, hxmem, by simp [hxid]⟩
  obtain ⟨d', hd'⟩ := Option.isSome_iff_exists.mp h1
  obtain ⟨x', hx'⟩ := Option.isSome_iff_exists.mp h2
  simp [jobSave, hsal, hd', hx', hp]

end Ats

namespace Ats

/-- A store with role 1, user 5, department 1, pipeline 7, job 10,
candidate 42, and a referral token 300 that expired at time 5. -/
def dbMain : Db :=
  { roles := [1]
    users := [{ id := 5, roleId := 1 }]
    departments := [{ id := 1, hiringManagerId := 5 }]
    pipelines := [7]
    jobs := [{ id := 10, departmentId := 1, hiringManagerId := 5
               hiringPipelineId := 7, minimumSalary := 60, maximumSalary := 80 }]
    jobSkills := []
    jobApplications := []
    referralTokens := [{ id := 300, jobId := 10, expiresAt := 5 }]
    candidates := [{ id := 42, status := .applied, statusModified := false
                     referralTokenId := none }]
    hiringStages := [] }

end Ats

namespace Ats

/-! ## C4 — mandatory stages cannot be skipped -/

/-- C4: every `HiringStage` save with `mandatory = true` and
`status = skipped` is rejected; when the schema validators (`schedule`,
`maxCandidatesAllowed`) pass, the error is exactly
"Mandatory stages cannot be skipped".  The guard runs before the
`pipelineId` / `assignedToId` lookups, so rejection does not depend on the
store. -/
theorem mandatoryStageSkip_rejected (db : Db) (s : HiringStageDoc) (now : Nat)
    (hm : s.mandatory = true) (hs : s.status = StageStatus.skipped) :
    (hiringStageSave db s now).isOk = false
    ∧ (stageScheduleValid s now = true → stageMaxCandidatesValid s = true →
        hiringStageSave db s now = .error "Mandatory stages cannot be skipped") := by
  have h3 : (s.mandatory && s.status == StageStatus.skipped) = true := by
    rw [hm, hs]; rfl
  constructor
  · unfold hiringStageSave
    split_ifs with h1 h2 <;> rfl
  · intro hsch hmax
    simp [hiringStageSave, hsch, hmax, hm, hs]

/-- The "Application" stage of the specification's scenario: mandatory,
with its status set to `skipped`. -/
def applicationStageSkipped : HiringStageDoc :=
  { pipelineId := 7, name := "Application", mandatory := true, schedule := none
    status := .skipped, maxCandidatesAllowed := none, assignedToId := none }

/-- Witness for C4: the mandatory "Application" stage with status
`skipped` is rejected with "Mandatory stages cannot be skipped". -/
theorem mandatoryStageSkip_rejected_witness :
    (hiringStageSave dbMain applicationStageSkipped 0).isOk = false
    ∧ hiringStageSave dbMain applicationStageSkipped 0
        = .error "Mandatory stages cannot be skipped" := by
  have h := mandatoryStageSkip_rejected dbMain applicationStageSkipped 0
    (by decide) (by decide)
  exact ⟨h.1, h.2 (by decide) (by decide)⟩

/-! ## C6 — duplicate job applications -/

/-- C6: when candidate `a1.candidateId` and job `a1.jobId` exist and no
application for that (candidate, job) pair exists yet, the first
`JobApplication` save persists it, and any second application `a2` for the
same pair — whatever its other fields — fails with
"Candidate has already applied to this job". -/
theorem duplicateApplication_conflict (db : Db) (a1 a2 : JobApplicationDoc)
    (hc : ∃ c ∈ db.candidates, c.id = a1.candidateId)
    (hj : ∃ jj ∈ db.jobs, jj.id = a1.jobId)
    (hnew : ∀ e ∈ db.jobApplications,
      ¬ (e.candidateId = a1.candidateId ∧ e.jobId = a1.jobId))
    (h2c : a2.candidateId = a1.candidateId) (h2j : a2.jobId = a1.jobId) :
    jobApplicationSave db a1
      = .ok { db with jobApplications := db.jobApplications ++ [a1] }
    ∧ jobApplicationSave { db with jobApplications := db.jobApplications ++ [a1] } a2
      = .error "Candidate has already applied to this job" := by
  obtain ⟨c, hcmem, hcid⟩ := hc
  obtain ⟨jj, hjmem, hjid⟩ := hj
  have hc1 : (db.candidates.find? (fun x => x.id == a1.candidateId)).isSome :=
    List.find?_isSome.mpr ⟨c, hcmem, by simp [hcid]⟩
  have hj1 : (db.jobs.find? (fun x => x.id == a1.jobId)).isSome :=
    List.find?_isSome.mpr ⟨jj, hjmem, by simp [hjid]⟩
  obtain ⟨c', hc'⟩ := Option.isSome_iff_exists.mp hc1
  obtain ⟨j', hj'⟩ := Option.isSome_iff_exists.mp hj1
  have hex : db.jobApplications.find?
      (fun e => e.candidateId == a1.candidateId && e.jobId == a1.jobId) = none := by
    refine List.find?_eq_none.mpr (fun e hem => ?_)
    have := hnew e hem
    simp only [Bool.and_eq_true, beq_iff_eq]
    exact fun h => this ⟨h.1, h.2⟩
  constructor
  · simp [jobApplicationSave, hc', hj', hex]
  · have hc2 : (db.candidates.find? (fun x => x.id == a2.candidateId)).isSome := by
      rw [h2c]; exact hc1
    have hj2 : (db.jobs.find? (fun x => x.id == a2.jobId)).isSome := by
      rw [h2j]; exact hj1
    obtain ⟨c'', hc''⟩ := Option.isSome_iff_exists.mp hc2
    obtain ⟨j'', hj''⟩ := Option.isSome_iff_exists.mp hj2
    have hex2 : ((db.jobApplications ++ [a1]).find?
        (fun e => e.candidateId == a2.candidateId && e.jobId == a2.jobId)).isSome :=
      List.find?_isSome.mpr ⟨a1, by simp, by simp [h2c, h2j]⟩
    obtain ⟨e', he'⟩ := Option.isSome_iff_exists.mp hex2
    simp [jobApplicationSave, hc'', hj'', he']

/-- A first application of candidate 42 to job 10. -/
def app1 : JobApplicationDoc := { id := 500, candidateId := 42, jobId := 10 }

/-- A second application for the same (candidate, job) pair with different
other fields. -/
def app2 : JobApplicationDoc := { id := 501, candidateId := 42, jobId := 10 }

/-- Witness for C6: in `dbMain`, the first application of candidate 42 to
job 10 is persisted and the second one conflicts. -/
theorem duplicateApplication_conflict_witness :
    jobApplicationSave dbMain app1
      = .ok { dbMain with jobApplications := dbMain.jobApplications ++ [app1] }
    ∧ jobApplicationSave
        { dbMain with jobApplications := dbMain.jobApplications ++ [app1] } app2
      = .error "Candidate has already applied to this job" :=
  duplicateApplication_conflict dbMain app1 app2
    (by decide) (by decide) (by decide) (by decide) (by decide)

/-! ## C7 — salary-range validation -/

/-- C7: job validation fails with the `maximumSalary` validator message
whenever `maximumSalary < minimumSalary`, and succeeds on that criterion —
persisting the job — whenever `maximumSalary ≥ minimumSalary` and the
job's references resolve (the "all other fields valid" proviso). -/
theorem jobSalaryValidation (db : Db) (j : JobDoc) :
    (j.maximumSalary < j.minimumSalary →
      jobSave db j
        = .error "maximumSalary must be greater than or equal to minimumSalary")
    ∧ (j.minimumSalary ≤ j.maximumSalary →
        (∃ d ∈ db.departments, d.id = j.departmentId) →
        (∃ x ∈ db.users, x.id = j.hiringManagerId) →
        j.hiringPipelineId ∈ db.pipelines →
        jobSave db j = .ok { db with jobs := db.jobs ++ [j] }) := by
  constructor
  · intro hlt
    have h1 : jobSalaryValid j = false := by
      simp [jobSalaryValid]
      exact hlt
    simp [jobSave, h1]
  · intro hle hd hm hp
    exact jobSave_ok db j (by simpa [jobSalaryValid] using hle) hd hm hp

/-- A job with `minimumSalary = 80, maximumSalary = 60`. -/
def jobSalary8060 : JobDoc :=
  { id := 13, departmentId := 1, hiringManagerId := 5, hiringPipelineId := 7
    minimumSalary := 80, maximumSalary := 60 }

/-- A job with `minimumSalary = 60, maximumSalary = 80`. -/
def jobSalary6080 : JobDoc :=
  { id := 14, departmentId := 1, hiringManagerId := 5, hiringPipelineId := 7
    minimumSalary := 60, maximumSalary := 80 }

/-- Witness for C7: the specification's concrete salary examples. -/
theorem jobSalaryValidation_witness :
    jobSave dbMain jobSalary8060
      = .error "maximumSalary must be greater than or equal to minimumSalary"
    ∧ jobSave dbMain jobSalary6080
      = .ok { dbMain with jobs := dbMain.jobs ++ [jobSalary6080] } :=
  ⟨(jobSalaryValidation dbMain jobSalary8060).1 (by decide),
   (jobSalaryValidation dbMain jobSalary6080).2 (by decide) (by decide)
     (by decide) (by decide)⟩

/-! ## C9 — referral-token expiry at candidate-save time -/

/-- C9: a candidate save with `referralTokenId` set fails with
"Invalid or expired referral token" whenever the store holds no
`ReferralToken` with that id whose `expiresAt` is at or after the current
time — the expiry comparison (`expiresAt ≥ now`) happens inside the save
hook itself, independent of the store's TTL auto-expiry. -/
theorem referralTokenExpiry_checked (db : Db) (c : CandidateDoc) (now t : Nat)
    (ht : c.referralTokenId = some t)
    (hexp : ∀ rt ∈ db.referralTokens, rt.id = t → rt.expiresAt < now) :
    candidateSave db c now = .error "Invalid or expired referral token" := by
  have hnone : db.referralTokens.find?
      (fun rt => rt.id == t && now ≤ rt.expiresAt) = none := by
    refine List.find?_eq_none.mpr (fun rt hmem => ?_)
    simp only [Bool.and_eq_true, beq_iff_eq, decide_eq_true_eq]
    rintro ⟨hid, hle⟩
    exact absurd hle (Nat.not_le.mpr (hexp rt hmem hid))
  simp [candidateSave, ht, hnone]

/-- A candidate whose `referralTokenId` points at token 300 of `dbMain`
(which expired at time 5). -/
def candidateWithExpiredToken : CandidateDoc :=
  { id := 43, status := .applied, statusModified := false
    referralTokenId := some 300 }

/-- Witness for C9: at time 10 the save of a candidate referencing token
300 (expired at 5) fails with "Invalid or expired referral token". -/
theorem referralTokenExpiry_checked_witness :
    candidateSave dbMain candidateWithExpiredToken 10
      = .error "Invalid or expired referral token" :=
  referralTokenExpiry_checked dbMain candidateWithExpiredToken 10 300
    (by decide) (by decide)

end Ats

namespace Ats

/-- JS `String.prototype.toLowerCase ()` on the ASCII identifiers this
code compares (stage names, file extensions): character-wise lowering. -/
def lowerStr (s : String) : String := String.mk (s.data.map Char.toLower)

/-! ## C5 — mandatory pipeline stages cannot be deleted

The pipeline-update surface: the zod `PipelineSchema.hiringProcessStages`
refine of the pipeline route (an update's stage list must still contain a
stage named "application" and one named "screening", case-insensitively)
and the stage-delete button of the pipeline edit form, which is disabled
for a stage that is mandatory or named "Application" / "Screening". -/

/-- A stage as carried by the pipeline form / zod `StageSchema`
(fields the two checks read: `name`, `isMandatory`). -/
structure PStage where
  name : String
  isMandatory : Bool
deriving DecidableEq, Repr

/-- The `disabled` condition of the stage-delete button:
`stage.isMandatory || ["Application", "Screening"].includes (stage.name)`. -/
def stageDeleteDisabled (s : PStage) : Bool :=
  s.isMandatory || (s.name == "Application" || s.name == "Screening")

/-- The zod refine on `hiringProcessStages`: the stage list must contain
some stage whose lowercased name is "application" and some whose
lowercased name is "screening". -/
def hiringStagesRefine (stages : List PStage) : Bool :=
  stages.any (fun s => lowerStr s.name == "application")
    && stages.any (fun s => lowerStr s.name == "screening")

/-- Embeds `UpdatePipelineSchema` on the `hiringProcessStages` field: the field is
optional (`partial ()`), and when provided the refine must hold. -/
def updateStagesAccepted : Option (List PStage) → Bool
  | none => true
  | some stages => hiringStagesRefine stages

/-- C5: deleting stage `i` of a pipeline whose name is "Application" or
"Screening" is rejected regardless of its `isMandatory` flag: the delete
button is disabled for it, and an update submitting the stage list without
it (the stage being the only one bearing that name, case-insensitively)
fails the `hiringProcessStages` refine. -/
theorem mandatoryStageDelete_rejected (stages : List PStage) (i : Nat)
    (hi : i < stages.length)
    (hname : (stages.get ⟨i, hi⟩).name = "Application"
      ∨ (stages.get ⟨i, hi⟩).name = "Screening")
    (huniq : ∀ t ∈ stages.eraseIdx i,
      lowerStr t.name ≠ lowerStr (stages.get ⟨i, hi⟩).name) :
    stageDeleteDisabled (stages.get ⟨i, hi⟩) = true
    ∧ updateStagesAccepted (some (stages.eraseIdx i)) = false := by
  constructor
  · have hname' := hname
    simp only [List.get_eq_getElem] at hname'
    rcases hname' with h | h <;> simp [stageDeleteDisabled, h]
  · rcases hname with h | h
    · have happ : lowerStr "Application" = "application" := by decide
      have hany : (stages.eraseIdx i).any
          (fun s => lowerStr s.name == "application") = false := by
        rw [List.any_eq_false]
        intro t ht
        have hne := huniq t ht
        rw [h, happ] at hne
        simpa using hne
      simp [updateStagesAccepted, hiringStagesRefine, hany]
    · have hscr : lowerStr "Screening" = "screening" := by decide
      have hany : (stages.eraseIdx i).any
          (fun s => lowerStr s.name == "screening") = false := by
        rw [List.any_eq_false]
        intro t ht
        have hne := huniq t ht
        rw [h, hscr] at hne
        simpa using hne
      simp [updateStagesAccepted, hiringStagesRefine, hany]

/-- A three-stage pipeline; the "Application" stage's `isMandatory` flag is
deliberately `false`. -/
def stagesW : List PStage :=
  [{ name := "Application", isMandatory := false },
   { name := "Screening", isMandatory := true },
   { name := "Tech Interview", isMandatory := false }]

/-- Witness for C5: deleting the non-`isMandatory` "Application" stage of
`stagesW` is disabled in the form, and its deletion fails the update
refine. -/
theorem mandatoryStageDelete_rejected_witness :
    stageDeleteDisabled { name := "Application", isMandatory := false } = true
    ∧ updateStagesAccepted (some (stagesW.eraseIdx 0)) = false :=
  mandatoryStageDelete_rejected stagesW 0 (by decide) (by decide) (by decide)

end Ats

namespace Ats

/-! ## C10 — `parseResumes` (pdfParser.ts) -/

/-- An uploaded buffer, abstracted by the behaviour of the two external
parsers on it: `pdfResult` is the text `pdf-parse` resolves with (`none`
when it throws), `docxResult` likewise for `mammoth.extractRawText`. -/
structure RBuffer where
  pdfResult : Option String
  docxResult : Option String
deriving DecidableEq, Repr

/-- The characters after the last `/`, i.e. `path.basename` as used by
`path.extname` (POSIX). -/
def afterLastSep : List Char → List Char
  | [] => []
  | c :: cs =>
    if cs.contains '/' then afterLastSep cs
    else if c = '/' then cs
    else c :: cs

/-- The suffix of a character list starting at its last `.`, or `none`
when it holds no `.`. -/
def afterLastDot? : List Char → Option (List Char)
  | [] => none
  | c :: cs =>
    match afterLastDot? cs with
    | some suf => some suf
    | none => if c = '.' then some (c :: cs) else none

/-- Node's `path.extname`: the part of the basename from its last `.` on,
unless that dot is the basename's first character; the basename `".."` has
no extension. -/
def extname (s : String) : String :=
  let b := afterLastSep s.data
  if b = ['.', '.'] then ""
  else
    match b with
    | [] => ""
    | _ :: rest =>
      match afterLastDot? rest with
      | some suf => String.mk suf
      | none => ""

/-- One iteration of the `parseResumes` loop (pdfParser.ts:14-29):
`path.extname (filename).toLowerCase ()` selects the parser; an
unsupported extension throws "Unsupported file format" and the per-item
try/catch pushes `""`, exactly as it does when the selected parser
throws. -/
def parseOne (file : RBuffer) (filename : String) : String :=
  let ext := lowerStr (extname filename)
  if ext == ".pdf" then file.pdfResult.getD ""
  else if ext == ".docx" then file.docxResult.getD ""
  else ""

/-- Embeds `parseResumes` (pdfParser.ts:5-33).  The loop runs over `files`; once
`filenames` is exhausted `filenames[i]` is `undefined`, and
`path.extname (filename)` — evaluated outside the per-item try/catch —
throws a TypeError that rejects the whole call. -/
def parseResumes : List RBuffer → List String → Except String (List String)
  | [], _ => .ok []
  | _ :: _, [] => .error "TypeError: path.extname received an undefined filename"
  | f :: fs, n :: ns =>
    match parseResumes fs ns with
    | .error e => .error e
    | .ok rest => .ok (parseOne f n :: rest)

/-- C10 counterexample: with one buffer and an empty filename list,
`parseResumes` does not return a (length-preserving) result at all — the
out-of-range filename lookup makes `path.extname` throw outside the
try/catch, so the call rejects. -/
theorem parseResumes_lengthMismatch_cex :
    parseResumes [{ pdfResult := some "text", docxResult := none }] []
      = .error "TypeError: path.extname received an undefined filename" := rfl

/-- C10 as amended: whenever the filename list is at least as long as the
buffer list, `parseResumes` succeeds with exactly one string per input
buffer, in input order (entry `i` is `parseOne` of buffer `i` and filename
`i`, which `List.zipWith` expresses); and per item, an extension other
than ".pdf" / ".docx" or a throwing parser contributes `""` instead of
propagating an exception. -/
theorem parseResumes_totalAndOrdered (files : List RBuffer)
    (filenames : List String) (h : files.length ≤ filenames.length) :
    parseResumes files filenames = .ok (List.zipWith parseOne files filenames)
    ∧ (List.zipWith parseOne files filenames).length = files.length
    ∧ (∀ (f : RBuffer) (n : String),
        ((lowerStr (extname n) ≠ ".pdf" ∧ lowerStr (extname n) ≠ ".docx") →
          parseOne f n = "")
        ∧ (lowerStr (extname n) = ".pdf" → f.pdfResult = none → parseOne f n = "")
        ∧ (lowerStr (extname n) = ".docx" → f.docxResult = none →
            parseOne f n = "")) := by
  refine ⟨?_, ?_, ?_⟩
  · induction files generalizing filenames with
    | nil => rfl
    | cons f fs ih =>
      cases filenames with
      | nil => exact absurd h (by simp)
      | cons n ns =>
        have := ih ns (by simpa using Nat.le_of_succ_le_succ h)
        simp [parseResumes, this]
  · rw [List.length_zipWith]
    exact Nat.min_eq_left h
  · intro f n
    refine ⟨?_, ?_, ?_⟩
    · rintro ⟨h1, h2⟩
      simp [parseOne, h1, h2]
    · intro h1 h2
      simp [parseOne, h1, h2]
    · intro h1 h2
      have : (lowerStr (extname n) == ".pdf") = false := by
        rw [h1]; decide
      simp [parseOne, this, h1, h2]

/-- Buffers for the C10 witness: a healthy PDF, a PDF whose parser throws,
and a file that parses both ways but carries an unsupported extension. -/
def filesW : List RBuffer :=
  [{ pdfResult := some "hello", docxResult := none },
   { pdfResult := none, docxResult := none },
   { pdfResult := some "x", docxResult := some "y" }]

/-- Filenames for the C10 witness (mixed-case extension included). -/
def namesW : List String := ["cv.PDF", "b.pdf", "notes.txt"]

/-- Witness for C10 (amended): on `filesW` / `namesW` the call succeeds
and yields exactly `["hello", "", ""]`. -/
theorem parseResumes_totalAndOrdered_witness :
    parseResumes filesW namesW = .ok (List.zipWith parseOne filesW namesW)
    ∧ List.zipWith parseOne filesW namesW = ["hello", "", ""] :=
  ⟨(parseResumes_totalAndOrdered filesW namesW (by decide)).1, by decide⟩

end Ats

namespace Ats.AnalyseSave

/-! ## C8 — the batch resume-analysis POST handler
(`src/app/api/analyseSave/route.ts`)

The handler is embedded over oracles for its three external effects:

* each uploaded file is an `Item` holding its filename and the text that
  `parseResumes` produces for it on the first (`parse1`) and on the retry
  (`parse2`) pass — `parseResumes` itself never throws for a well-formed
  upload and yields `""` for a failed item (see `Ats.parseResumes`);
* `tool` is the LLM resume-matcher (`ResumeMatcherTool.invoke` via
  `analyzeResumes`), modelled as a function of the resume text;
  `Except.error` embeds a thrown analysis error;
* `save1 i` / `save2 i` give the outcome of the `Analysis.create` call for
  valid item `i` in the first pass and in the retry pass, with
  `save1reason` / `save2reason` the error messages of failed creates.

The job description and `jobRole` fields are constant over a request and
are elided; a saved `Analysis` document is represented by its `Agent`
record. -/

/-- The structured output of the LLM for one resume (`IAgentRespons`;
fields other than the ones the handler reads back are elided). -/
structure Agent where
  candidateName : String
  score : Int
deriving DecidableEq, Repr

/-- One uploaded file with its two parse outcomes. -/
structure Item where
  filename : String
  parse1 : String
  parse2 : String
deriving DecidableEq, Repr

/-- An entry of the response's "failed" list. -/
structure FailedEntry where
  filename : String
  candidateName : String
  reason : String
deriving DecidableEq, Repr

/-- The oracles for the handler's external effects. -/
structure Oracle where
  tool : String → Except String Agent
  save1 : Nat → Bool
  save1reason : Nat → String
  save2 : Nat → Bool
  save2reason : Nat → String

/-- The success payload of the response: the "saved" and "failed" lists. -/
structure BatchResult where
  saved : List Agent
  failed : List FailedEntry
deriving DecidableEq, Repr

/-- JS `!text.trim ()`: the string is empty or all-whitespace. -/
def isBlank (s : String) : Bool := s.data.all Char.isWhitespace

/-- The parsed text of an item after the handler's retry pass
(route.ts:56-71): items whose first parse is blank are re-parsed once and
the retry result replaces the blank entry. -/
def parsedText (it : Item) : String :=
  if isBlank it.parse1 then it.parse2 else it.parse1

/-- An item that has a non-blank parsed text after the retry pass. -/
def isValid (it : Item) : Bool := !isBlank (parsedText it)

/-- The valid items, in input order (route.ts:74-79). -/
def validItems (items : List Item) : List Item := items.filter isValid

/-- Embeds `analyzeResumes` (langchainAgent): invokes the tool on each resume in
order; a thrown error propagates and aborts the whole call — there is no
per-item catch around `tool.invoke`. -/
def analyzeResumes (tool : String → Except String Agent) :
    List String → Except String (List Agent)
  | [] => .ok []
  | r :: rs =>
    match tool r with
    | .error e => .error e
    | .ok a =>
      match analyzeResumes tool rs with
      | .error e => .error e
      | .ok as => .ok (a :: as)

/-- JS `Array.prototype.findIndex` (none for -1). -/
def findIndex (p : String → Bool) : List String → Option Nat
  | [] => none
  | x :: xs => if p x then some 0 else (findIndex p xs).map (· + 1)

/-- The first save pass (route.ts:89-109): each analysis is saved with
`Analysis.create` inside a per-item try/catch; a failure is recorded as a
failed-analysis entry carrying the item's filename and candidate name.
`i` is the running valid-item index. -/
def firstPass (oc : Oracle) : List (Agent × String) → Nat →
    List Agent × List FailedEntry
  | [], _ => ([], [])
  | (a, fn) :: rest, i =>
    let (s, f) := firstPass oc rest (i + 1)
    if oc.save1 i then (a :: s, f)
    else (s, { filename := fn, candidateName := a.candidateName
               reason := oc.save1reason i } :: f)

/-- The retry pass (route.ts:112-146): for each first-pass failure, the
handler finds the item's valid index again BY FILENAME
(`validFilenames.findIndex`), re-analyzes that single resume — this
`analyzeResumes` call is not wrapped in a per-item try/catch, so a thrown
analysis error aborts the whole request — and retries the save; a second
failure is recorded as a retry failure. -/
def retryPass (oc : Oracle) (vrs vfs : List String) :
    List FailedEntry → Except String (List Agent × List FailedEntry)
  | [] => .ok ([], [])
  | fail :: rest =>
    match findIndex (fun f => f == fail.filename) vfs with
    | none => retryPass oc vrs vfs rest
    | some idx =>
      match oc.tool (vrs.getD idx "") with
      | .error e => .error e
      | .ok a =>
        match retryPass oc vrs vfs rest with
        | .error e => .error e
        | .ok (s, f) =>
          if oc.save2 idx then .ok (a :: s, f)
          else .ok (s, { filename := fail.filename
                         candidateName := fail.candidateName
                         reason := oc.save2reason idx } :: f)

/-- The permanently-failed parses (route.ts:149-156): items whose parsed
text is still blank after the retry parse. -/
def finalFailedParses (items : List Item) : List FailedEntry :=
  (items.filter (fun it => isBlank (parsedText it))).map
    (fun it => { filename := it.filename, candidateName := "Unknown"
                 reason := "Failed to parse resume after retry" })

/-- The batch part of the POST handler (route.ts:56-162): parse with one
retry, analyze the valid resumes in one batch, first save pass, retry
pass, then respond with `saved` = first-pass saves ++ retry saves and
`failed` = retry failures ++ permanently-failed parses.  An error escaping
`analyzeResumes` is caught by the surrounding try/catch and turned into a
500 response (embedded as `Except.error`). -/
def analyseSavePost (oc : Oracle) (items : List Item) :
    Except String BatchResult :=
  match analyzeResumes oc.tool ((validItems items).map parsedText) with
  | .error e => .error e
  | .ok analyses =>
    match firstPass oc
        (analyses.zip ((validItems items).map (fun it => it.filename))) 0 with
    | (saved1, failedAnalyses) =>
      match retryPass oc ((validItems items).map parsedText)
          ((validItems items).map (fun it => it.filename)) failedAnalyses with
      | .error e => .error e
      | .ok (saved2, retryFailures) =>
        .ok { saved := saved1 ++ saved2
              failed := retryFailures ++ finalFailedParses items }

/-- Alice's analysis record. -/
def agentAlice : Agent := { candidateName := "Alice", score := 90 }

/-- Bob's analysis record. -/
def agentBob : Agent := { candidateName := "Bob", score := 80 }

/-- An oracle whose LLM throws on resume text "B" and always saves. -/
def oracleAbort : Oracle :=
  { tool := fun r => if r == "B" then .error "LLM failure" else .ok agentAlice
    save1 := fun _ => true, save1reason := fun _ => "create failed"
    save2 := fun _ => true, save2reason := fun _ => "create failed again" }

/-- An oracle that analyzes "A" to Alice and "B" to Bob, whose first-pass
save succeeds only at valid index 0 and whose retry save always
succeeds. -/
def oracleDup : Oracle :=
  { tool := fun r => if r == "B" then .ok agentBob else .ok agentAlice
    save1 := fun i => i == 0, save1reason := fun _ => "create failed"
    save2 := fun _ => true, save2reason := fun _ => "create failed again" }

/-- C8 counterexample: (a) two well-parsed uploads, the LLM throws on the
second one — the whole batch aborts with a 500-style error, the first item
is neither saved nor reported, contradicting "an analysis failure of a
single item does not abort the batch"; (b) two well-parsed uploads sharing
the filename "r.pdf", the first-pass save fails for the second one — the
retry locates the wrong item by filename, saves Alice's analysis twice,
and Bob's failing item is retried never, saved never, and absent from the
"failed" list. -/
theorem analyseSave_cex :
    analyseSavePost oracleAbort
      [{ filename := "a.pdf", parse1 := "A", parse2 := "A" },
       { filename := "b.pdf", parse1 := "B", parse2 := "B" }]
      = .error "LLM failure"
    ∧ analyseSavePost oracleDup
        [{ filename := "r.pdf", parse1 := "A", parse2 := "A" },
         { filename := "r.pdf", parse1 := "B", parse2 := "B" }]
      = .ok { saved := [agentAlice, agentAlice], failed := [] } := by
  constructor <;> rfl

end Ats.AnalyseSave

namespace Ats.AnalyseSave

/-! ### Characterization lemmas for the amended C8 claim -/

/-- When the tool succeeds on every resume of the batch, `analyzeResumes`
returns one analysis per resume. -/
theorem analyzeResumes_ok (tool : String → Except String Agent)
    (rs : List String) (h : ∀ r ∈ rs, (tool r).isOk = true) :
    ∃ as, analyzeResumes tool rs = .ok as ∧ as.length = rs.length := by
  induction rs with
  | nil => exact ⟨[], rfl, rfl⟩
  | cons r rs ih =>
    have h1 := h r (by simp)
    obtain ⟨a, ha⟩ : ∃ a, tool r = .ok a := by
      cases htr : tool r with
      | error e => rw [htr] at h1; simp [Except.isOk, Except.toBool] at h1
      | ok a => exact ⟨a, rfl⟩
    obtain ⟨as, has, hl⟩ := ih (fun x hx => h x (by simp [hx]))
    exact ⟨a :: as, by simp [analyzeResumes, ha, has], by simp [hl]⟩

/-- A successful `analyzeResumes` analyzes resume `k` to analysis `k`:
the tool, being a function of the resume text, yields the same result when
the retry pass re-invokes it on that resume. -/
theorem analyzeResumes_get (tool : String → Except String Agent)
    (rs : List String) (as : List Agent)
    (h : analyzeResumes tool rs = .ok as) (k : Nat)
    (hr : k < rs.length) (ha : k < as.length) :
    tool (rs[k]) = .ok (as[k]) := by
  induction rs generalizing as k with
  | nil => simp at hr
  | cons r rs ih =>
    cases htr : tool r with
    | error e => rw [analyzeResumes, htr] at h; simp at h
    | ok a =>
      rw [analyzeResumes, htr] at h
      cases hrec : analyzeResumes tool rs with
      | error e => rw [hrec] at h; simp at h
      | ok as' =>
        rw [hrec] at h
        simp only [Except.ok.injEq] at h
        subst h
        cases k with
        | zero => simpa using htr
        | succ k =>
          have hr' : k < rs.length := by simpa using hr
          have ha' : k < as'.length := by simpa using ha
          simpa using ih as' hrec k hr' ha'

/-- On a duplicate-free list, `findIndex` recovers the index of an
element looked up by its own value. -/
theorem findIndex_getD_of_nodup (l : List String) (hnd : l.Nodup)
    (k : Nat) (hk : k < l.length) :
    findIndex (fun f => f == l.getD k "") l = some k := by
  induction l generalizing k with
  | nil => simp at hk
  | cons a rest ih =>
    obtain ⟨hna, hnr⟩ := List.nodup_cons.mp hnd
    cases k with
    | zero => simp [findIndex]
    | succ k =>
      have hk' : k < rest.length := by simpa using hk
      have hmem : rest.getD k "" ∈ rest := by
        rw [List.getD_eq_getElem rest "" hk']
        exact List.getElem_mem hk'
      have hne : a ≠ rest.getD k "" := fun hcon => hna (by rw [hcon]; exact hmem)
      have hih := ih hnr k hk'
      rw [List.getD_cons_succ]
      rw [List.getD_eq_getElem?_getD] at hne hih
      simp [findIndex, hne, hih]

/-- Index-value pairs of a list, starting at index `n` (the loop counter
of the first save pass). -/
def idxPairs {α : Type} : Nat → List α → List (Nat × α)
  | _, [] => []
  | n, x :: xs => (n, x) :: idxPairs (n + 1) xs

/-- Every member of `idxPairs n l` is a position of `l` (shifted by `n`)
paired with the value there. -/
theorem idxPairs_mem {α : Type} (l : List α) (n : Nat) (q : Nat × α)
    (hq : q ∈ idxPairs n l) :
    ∃ (k : Nat) (hk : k < l.length), q.1 = n + k ∧ q.2 = l.get ⟨k, hk⟩ := by
  induction l generalizing n with
  | nil => simp [idxPairs] at hq
  | cons a rest ih =>
    simp only [idxPairs, List.mem_cons] at hq
    rcases hq with h | h
    · exact ⟨0, by simp, by simp [h], by simp [h]⟩
    · obtain ⟨k, hk, h1, h2⟩ := ih (n + 1) h
      refine ⟨k + 1, by simpa using hk, by omega, by simpa using h2⟩

/-- The first save pass keeps the analyses whose save succeeds (in order)
and records a failed entry for every other analysis (in order). -/
theorem firstPass_eq (oc : Oracle) (l : List (Agent × String)) (n : Nat) :
    firstPass oc l n =
      ( ((idxPairs n l).filter (fun q => oc.save1 q.1)).map (fun q => q.2.1),
        ((idxPairs n l).filter (fun q => !oc.save1 q.1)).map
          (fun q => { filename := q.2.2, candidateName := q.2.1.candidateName
                      reason := oc.save1reason q.1 }) ) := by
  induction l generalizing n with
  | nil => rfl
  | cons p rest ih =>
    obtain ⟨a, fn⟩ := p
    by_cases h : oc.save1 n
    · simp [firstPass, idxPairs, ih, h]
    · simp [firstPass, idxPairs, ih, h]

/-- The retry pass over failed entries generated from index-value pairs:
when the valid filenames are duplicate-free, each failed entry is matched
back to its own index, the tool re-analysis succeeds with the original
analysis, and the retry save decides whether the item lands in the saved
or in the failed output — in order, consulting `save2` exactly once per
entry. -/
theorem retryPass_char (oc : Oracle) (vrs vfs : List String)
    (hnd : vfs.Nodup) (E : List (Nat × (Agent × String)))
    (hE : ∀ q ∈ E, q.1 < vfs.length ∧ q.2.2 = vfs.getD q.1 ""
        ∧ oc.tool (vrs.getD q.1 "") = .ok q.2.1) :
    retryPass oc vrs vfs (E.map (fun q =>
        { filename := q.2.2, candidateName := q.2.1.candidateName
          reason := oc.save1reason q.1 }))
      = .ok ( (E.filter (fun q => oc.save2 q.1)).map (fun q => q.2.1),
              (E.filter (fun q => !oc.save2 q.1)).map (fun q =>
                { filename := q.2.2, candidateName := q.2.1.candidateName
                  reason := oc.save2reason q.1 }) ) := by
  induction E with
  | nil => rfl
  | cons q E ih =>
    obtain ⟨hk, hfn, htool⟩ := hE q (by simp)
    have hfind : findIndex (fun f => f == q.2.2) vfs = some q.1 := by
      rw [hfn]
      exact findIndex_getD_of_nodup vfs hnd q.1 hk
    rw [List.getD_eq_getElem?_getD] at htool
    have ih' := ih (fun p hp => hE p (by simp [hp]))
    by_cases h2 : oc.save2 q.1
    · simp [retryPass, hfind, htool, ih', h2]
    · simp [retryPass, hfind, htool, ih', h2]

end Ats.AnalyseSave

namespace Ats.AnalyseSave

/-- The "saved" list the amended claim predicts: the analyses whose
first-pass save succeeds, in order, followed by the analyses whose
first-pass save fails but whose retry save succeeds, in order. -/
def savedSpec (oc : Oracle) (pairs : List (Nat × (Agent × String))) :
    List Agent :=
  (pairs.filter (fun q => oc.save1 q.1)).map (fun q => q.2.1)
    ++ (pairs.filter (fun q => oc.save2 q.1 && !oc.save1 q.1)).map
        (fun q => q.2.1)

/-- The "failed" list the amended claim predicts: one retry-failure entry
per item whose save failed in both passes, in order, followed by one
permanently-failed-parse entry per item whose parse was blank in both
passes, in order. -/
def failedSpec (oc : Oracle) (pairs : List (Nat × (Agent × String)))
    (items : List Item) : List FailedEntry :=
  (pairs.filter (fun q => !oc.save2 q.1 && !oc.save1 q.1)).map
      (fun q => { filename := q.2.2, candidateName := q.2.1.candidateName
                  reason := oc.save2reason q.1 })
    ++ finalFailedParses items

/-- C8 as amended: when the uploaded filenames are pairwise distinct and
the LLM analysis of every successfully-parsed resume completes without
throwing, the batch succeeds end to end and no single item's failure
aborts it: an item whose first parse is blank is re-parsed exactly once
and recorded in the "failed" list (reason "Failed to parse resume after
retry") only when the retry parse is blank too; an item whose first
`Analysis.create` fails is re-analyzed and re-saved exactly once and
recorded in the "failed" list only when the retry save fails too; every
other item's analysis lands in the "saved" list. -/
theorem analyseSave_amended (oc : Oracle) (items : List Item)
    (hnd : (items.map (fun it => it.filename)).Nodup)
    (htool : ∀ it ∈ items, isValid it = true →
      (oc.tool (parsedText it)).isOk = true) :
    ∃ analyses,
      analyzeResumes oc.tool ((validItems items).map parsedText)
        = .ok analyses
      ∧ analyseSavePost oc items = .ok
          { saved := savedSpec oc (idxPairs 0
              (analyses.zip ((validItems items).map (fun it => it.filename))))
            failed := failedSpec oc (idxPairs 0
              (analyses.zip ((validItems items).map (fun it => it.filename))))
              items } := by
  have htool' : ∀ r ∈ (validItems items).map parsedText,
      (oc.tool r).isOk = true := by
    intro r hr
    obtain ⟨it, hit, rfl⟩ := List.mem_map.mp hr
    have hit' := List.mem_filter.mp hit
    exact htool it hit'.1 hit'.2
  obtain ⟨analyses, hana, hlen⟩ :=
    analyzeResumes_ok oc.tool ((validItems items).map parsedText) htool'
  refine ⟨analyses, hana, ?_⟩
  have hndv : ((validItems items).map (fun it => it.filename)).Nodup :=
    ((List.filter_sublist items).map (fun it => it.filename)).nodup hnd
  have hlenv : ((validItems items).map parsedText).length
      = ((validItems items).map (fun it => it.filename)).length := by
    simp
  have hE : ∀ q ∈ (idxPairs 0
      (analyses.zip ((validItems items).map (fun it => it.filename)))).filter
        (fun q => !oc.save1 q.1),
      q.1 < ((validItems items).map (fun it => it.filename)).length
      ∧ q.2.2 = ((validItems items).map (fun it => it.filename)).getD q.1 ""
      ∧ oc.tool (((validItems items).map parsedText).getD q.1 "")
          = .ok q.2.1 := by
    intro q hqf
    have hq := List.mem_of_mem_filter hqf
    obtain ⟨k, hkp, h1, h2⟩ := idxPairs_mem _ 0 q hq
    have h1' : q.1 = k := by simpa using h1
    rw [List.length_zip] at hkp
    have hkA : k < analyses.length := lt_of_lt_of_le hkp (Nat.min_le_left _ _)
    have hkF : k < ((validItems items).map (fun it => it.filename)).length :=
      lt_of_lt_of_le hkp (Nat.min_le_right _ _)
    have hkR : k < ((validItems items).map parsedText).length := by
      rw [hlenv]; exact hkF
    have h2' : q.2 = (analyses[k],
        ((validItems items).map (fun it => it.filename))[k]) := by
      rw [h2]; simp [List.get_eq_getElem, List.getElem_zip]
    refine ⟨by rw [h1']; exact hkF, ?_, ?_⟩
    · rw [h1', h2', List.getD_eq_getElem _ "" hkF]
    · rw [h1', h2', List.getD_eq_getElem _ "" hkR]
      exact analyzeResumes_get oc.tool _ analyses hana k hkR hkA
  have hfp := firstPass_eq oc
    (analyses.zip ((validItems items).map (fun it => it.filename))) 0
  have hrp := retryPass_char oc ((validItems items).map parsedText)
    ((validItems items).map (fun it => it.filename)) hndv
    ((idxPairs 0
      (analyses.zip ((validItems items).map (fun it => it.filename)))).filter
        (fun q => !oc.save1 q.1)) hE
  unfold analyseSavePost
  rw [hana]
  dsimp only
  rw [hfp]
  dsimp only
  rw [hrp]
  simp only [savedSpec, failedSpec, List.filter_filter, Except.ok.injEq,
    BatchResult.mk.injEq]

end Ats.AnalyseSave

namespace Ats.AnalyseSave

/-- Carol's analysis record. -/
def agentCarol : Agent := { candidateName := "Carol", score := 70 }

/-- Witness oracle: analyzes "C" to Carol and anything else to Alice;
the first-pass save succeeds only at valid index 0 and the retry save
always fails. -/
def oracleW : Oracle :=
  { tool := fun r => if r == "C" then .ok agentCarol else .ok agentAlice
    save1 := fun i => i == 0, save1reason := fun _ => "duplicate key"
    save2 := fun _ => false, save2reason := fun _ => "duplicate key again" }

/-- Witness uploads: a healthy resume, one that fails both parse passes,
and one whose save fails twice; filenames are pairwise distinct. -/
def itemsW : List Item :=
  [{ filename := "a.pdf", parse1 := "A", parse2 := "A" },
   { filename := "bad.pdf", parse1 := "", parse2 := "" },
   { filename := "c.pdf", parse1 := "C", parse2 := "C" }]

/-- Witness for the amended C8 claim on `oracleW` / `itemsW`. -/
theorem analyseSave_amended_witness :
    ∃ analyses,
      analyzeResumes oracleW.tool ((validItems itemsW).map parsedText)
        = .ok analyses
      ∧ analyseSavePost oracleW itemsW = .ok
          { saved := savedSpec oracleW (idxPairs 0
              (analyses.zip ((validItems itemsW).map (fun it => it.filename))))
            failed := failedSpec oracleW (idxPairs 0
              (analyses.zip ((validItems itemsW).map (fun it => it.filename))))
              itemsW } :=
  analyseSave_amended oracleW itemsW (by decide) (by decide)

end Ats.AnalyseSave

namespace Ats

/-! ## The remaining pre-save referential-integrity hooks of models.ts

One save operation per schema, mirroring each hook's lookups, check order
and error messages. -/

end Ats
namespace Ats

end Ats

namespace Ats

end Ats

namespace Ats

/-! ## C3 — referential-integrity pre-save checks (corrected) -/

end Ats

namespace Ats

end Ats
